import Mathlib

/-!
Verification of the PPTX translator worker (`src/Traductor.py`).

The worker `TranslatorThread.run` and the window `PPTXTranslatorApp` are
embedded shallowly:

* the document is a list of slides, each a list of shapes; a shape either
  exposes a direct `text` attribute, or a `text_frame` of paragraphs, or
  neither (e.g. a picture), mirroring the `hasattr` branches of the code;
* the external collaborators (translator construction, `Presentation(...)`,
  `prs.save(...)`, and each `translator.translate(...)` call) are modelled
  as fallible functions supplied by an `Env`; a Python exception is an
  `Except.error` carrying `str(e)`;
* the Qt signals `progress`, `finished`, `error` become an emitted list of
  `Event`s, in emission order;
* Python's `int(processed / total * 100)` for `0 ≤ processed ≤ total` is
  the floored percentage `processed * 100 / total` (Nat division); the
  `ZeroDivisionError` Python would raise when `total = 0` is modelled
  explicitly by `pyPercent`, which fails on a zero divisor exactly like the
  Python expression does.
-/

namespace PPTTranslator

/-- A paragraph of a shape's text frame; only its `text` is relevant. -/
structure Paragraph where
  text : String
deriving Repr, DecidableEq

/-- A shape on a slide, split by the attribute tests the code performs:
`hasattr(shape, "text")`, `elif hasattr(shape, "text_frame")`, else neither
(a picture, a connector, ...). -/
inductive Shape where
  | withText (text : String)
  | withFrame (paragraphs : List Paragraph)
  | other
deriving Repr, DecidableEq

/-- A slide is its list of shapes (`slide.shapes`). -/
abbrev Slide := List Shape

/-- A presentation document: `prs.slides`, in document order. -/
abbrev Doc := List Slide

/-- A translation client: `translator.translate(text)` may raise. -/
abbrev Translator := String → Except String String

/-- The immutable inputs of one run (`TranslatorThread.__init__`). -/
structure Job where
  input_file : String
  output_file : String
  source : String
  target : String
deriving Repr, DecidableEq

/-- The external world a run executes against: constructing
`GoogleTranslator(source, target)`, opening `Presentation(input_file)` and
`prs.save(output_file)` may each raise. -/
structure Env where
  mkTranslator : String → String → Except String Translator
  openDoc : String → Except String Doc
  save : Doc → String → Except String Unit

/-- One emitted Qt signal of the worker. -/
inductive Event where
  | progress (value : Nat)
  | finished
  | error (message : String)
deriving Repr, DecidableEq

/-- The value carried by a Progress event, if any. -/
def eventValue? : Event → Option Nat
  | .progress v => some v
  | _ => none

/-- The values of the Progress events of a trace, in order. -/
def progressVals (l : List Event) : List Nat := l.filterMap eventValue?

/-- Terminal events: `finished` or `error`. -/
def isTerminal : Event → Bool
  | .progress _ => false
  | .finished => true
  | .error _ => true

/-- `shape.text_frame.text`: the paragraph texts joined by newlines. -/
def frameText (ps : List Paragraph) : String :=
  String.intercalate "\n" (ps.map Paragraph.text)

/-- The truthiness of Python's `s.strip()`: `bool(s.strip())` is true exactly
when `s` contains a character that is not whitespace (stripping removes
whitespace only from the two ends, so it yields the empty — falsy — string
precisely when every character is whitespace). -/
def pyHasContent (s : String) : Bool :=
  s.data.any fun c => !c.isWhitespace

/-- `total_shapes = sum(len(slide.shapes) for slide in prs.slides)`. -/
def totalShapes (d : Doc) : Nat := (d.map List.length).sum

/-- The paragraph loop of the code: for each paragraph whose stripped text is
non-empty, `paragraph.text = translator.translate(paragraph.text)`.  A raise
from `translate` escapes the `for` loop, so the paragraphs after the failing
one keep their old text (the exception is caught one level up, per shape). -/
def translateParas (tr : Translator) : List Paragraph → List Paragraph
  | [] => []
  | p :: ps =>
    if pyHasContent p.text then
      match tr p.text with
      | .ok t => ⟨t⟩ :: translateParas tr ps
      | .error _ => p :: ps
    else p :: translateParas tr ps

/-- The body of the per-shape `try`: translate a direct `text` attribute when
its stripped form is non-empty, else walk the text frame's paragraphs when the
frame's stripped text is non-empty.  Any raise is caught by the
`except Exception as shape_error` handler, so the shape's processing always
yields a shape and the loop continues. -/
def processShape (tr : Translator) : Shape → Shape
  | .withText t =>
    if pyHasContent t then
      match tr t with
      | .ok t2 => .withText t2
      | .error _ => .withText t
    else .withText t
  | .withFrame ps =>
    if pyHasContent (frameText ps) then .withFrame (translateParas tr ps)
    else .withFrame ps
  | .other => .other

/-- The texts handed to `translator.translate` while the paragraph loop of one
frame runs (a failing call still received its text; paragraphs after a failing
call are never sent). -/
def sentParas (tr : Translator) : List Paragraph → List String
  | [] => []
  | p :: ps =>
    if pyHasContent p.text then
      p.text ::
        match tr p.text with
        | .ok _ => sentParas tr ps
        | .error _ => []
    else sentParas tr ps

/-- The texts handed to `translator.translate` while one shape is processed. -/
def sentTexts (tr : Translator) : Shape → List String
  | .withText t => if pyHasContent t then [t] else []
  | .withFrame ps =>
    if pyHasContent (frameText ps) then sentParas tr ps else []
  | .other => []

/-- `int(processed_shapes / total_shapes * 100)`: Python raises
`ZeroDivisionError` when `total_shapes == 0`, otherwise the result is the
floored percentage. -/
def pyPercent (processed total : Nat) : Except String Nat :=
  if total = 0 then .error "division by zero"
  else .ok (processed * 100 / total)

/-- Result of running the shape loop over one slide: the mutated shapes, the
events emitted, the final `processed_shapes` counter, and a pending fatal
exception (only a `ZeroDivisionError` can arise here; everything else is
caught per shape). -/
structure ShapesOut where
  shapes : List Shape
  events : List Event
  processed : Nat
  fatal : Option String
deriving Repr, DecidableEq

/-- Result of running the slide loop. -/
structure SlidesOut where
  slides : Doc
  events : List Event
  processed : Nat
  fatal : Option String
deriving Repr, DecidableEq

/-- The inner `for shape in slide.shapes` loop: process the shape (failures
caught), then `processed_shapes += 1` and emit
`progress(int(processed_shapes / total_shapes * 100))`. -/
def runShapes (tr : Translator) (total : Nat) :
    List Shape → Nat → ShapesOut
  | [], p => ⟨[], [], p, none⟩
  | s :: rest, p =>
    let s2 := processShape tr s
    match pyPercent (p + 1) total with
    | .error e => ⟨[s2], [], p + 1, some e⟩
    | .ok v =>
      let r := runShapes tr total rest (p + 1)
      ⟨s2 :: r.shapes, .progress v :: r.events, r.processed, r.fatal⟩

/-- The outer `for slide in prs.slides` loop. -/
def runSlides (tr : Translator) (total : Nat) :
    Doc → Nat → SlidesOut
  | [], p => ⟨[], [], p, none⟩
  | slide :: rest, p =>
    let r1 := runShapes tr total slide p
    match r1.fatal with
    | some e => ⟨[r1.shapes], r1.events, r1.processed, some e⟩
    | none =>
      let r2 := runSlides tr total rest r1.processed
      ⟨r1.shapes :: r2.slides, r1.events ++ r2.events, r2.processed, r2.fatal⟩

/-- Observable outcome of one `TranslatorThread.run`: the signal trace, the
successful writes performed (path and content — only `prs.save` writes), and
whether the `prs.save` call was reached. -/
structure RunResult where
  events : List Event
  written : List (String × Doc)
  saveReached : Bool
deriving Repr, DecidableEq

/-- `TranslatorThread.run`: build the translator, open the presentation,
count the shapes, run the loops, save, and emit `finished`; any exception
escaping the `try` is reported once through `error.emit(str(e))`. -/
def runWorker (env : Env) (job : Job) : RunResult :=
  match env.mkTranslator job.source job.target with
  | .error e => ⟨[.error e], [], false⟩
  | .ok tr =>
    match env.openDoc job.input_file with
    | .error e => ⟨[.error e], [], false⟩
    | .ok prs =>
      let total := totalShapes prs
      let r := runSlides tr total prs 0
      match r.fatal with
      | some e => ⟨r.events ++ [.error e], [], false⟩
      | none =>
        match env.save r.slides job.output_file with
        | .ok _ => ⟨r.events ++ [.finished], [(job.output_file, r.slides)], true⟩
        | .error e => ⟨r.events ++ [.error e], [], true⟩

/-- The Progress events of a full loop: values `i * 100 / total` for
`i = start, …, start + n - 1`. -/
def percentEvents (start n total : Nat) : List Event :=
  (List.range' start n).map fun i => Event.progress (i * 100 / total)

/-! ## The application window (`PPTXTranslatorApp`) -/

/-- The UI state the spec's claims touch: the two path labels, the two
language selectors, the progress bar value and the translate button's
enabled flag. -/
structure AppState where
  input_file_label : String
  output_file_label : String
  source_lang : String
  target_lang : String
  progress_bar : Nat
  translate_button_enabled : Bool
deriving Repr, DecidableEq

/-- The `initUI` state: placeholder labels, `en`/`es` defaults. -/
def initUI : AppState :=
  { input_file_label := "No input file selected"
    output_file_label := "No output file selected"
    source_lang := "en"
    target_lang := "es"
    progress_bar := 0
    translate_button_enabled := true }

/-- The outward actions a UI method performs: modal dialogs and starting a
worker thread (the only way any file I/O can begin). -/
inductive UIAction where
  | warningBox (title msg : String)
  | informationBox (title msg : String)
  | criticalBox (title msg : String)
  | startThread (job : Job)
deriving Repr, DecidableEq

/-- `PPTXTranslatorApp.translate_pptx`: if either label still shows its
placeholder, warn and return; otherwise disable the button, zero the progress
bar and start exactly one `TranslatorThread` built from the current state. -/
def translate_pptx (s : AppState) : AppState × List UIAction :=
  if s.input_file_label = "No input file selected"
      ∨ s.output_file_label = "No output file selected" then
    (s, [.warningBox "Error" "Please select both input and output files."])
  else
    ({ s with translate_button_enabled := false, progress_bar := 0 },
     [.startThread
        ⟨s.input_file_label, s.output_file_label, s.source_lang, s.target_lang⟩])

/-- `PPTXTranslatorApp.update_progress`. -/
def update_progress (s : AppState) (value : Nat) : AppState :=
  { s with progress_bar := value }

/-- `PPTXTranslatorApp.translation_finished`. -/
def translation_finished (s : AppState) : AppState × List UIAction :=
  ({ s with translate_button_enabled := true },
   [.informationBox "Success"
      ("Translation completed. File saved as: " ++ s.output_file_label)])

/-- `PPTXTranslatorApp.translation_error`. -/
def translation_error (s : AppState) (message : String) : AppState × List UIAction :=
  ({ s with translate_button_enabled := true },
   [.criticalBox "Error"
      ("An error occurred during translation: " ++ message)])

/-! ## Loop characterization -/

theorem totalShapes_cons (a : Slide) (rest : Doc) :
    totalShapes (a :: rest) = a.length + totalShapes rest := by
  simp [totalShapes]

theorem percentEvents_append (start a b total : Nat) :
    percentEvents start a total ++ percentEvents (start + a) b total =
      percentEvents start (a + b) total := by
  simp only [percentEvents, ← List.map_append, List.range'_append_1]
  rw [Nat.add_comm b a]

theorem runShapes_of_pos (tr : Translator) {total : Nat} (h : total ≠ 0)
    (shapes : List Shape) (p : Nat) :
    runShapes tr total shapes p =
      ⟨shapes.map (processShape tr),
       percentEvents (p + 1) shapes.length total,
       p + shapes.length, none⟩ := by
  induction shapes generalizing p with
  | nil => simp [runShapes, percentEvents]
  | cons s rest ih =>
    simp only [runShapes, pyPercent, if_neg h, ih (p + 1), List.map_cons,
      List.length_cons, percentEvents, List.range'_succ, ShapesOut.mk.injEq]
    exact ⟨trivial, trivial, by omega, trivial⟩

theorem runSlides_of_pos (tr : Translator) {total : Nat} (h : total ≠ 0)
    (d : Doc) (p : Nat) :
    runSlides tr total d p =
      ⟨d.map (List.map (processShape tr)),
       percentEvents (p + 1) (totalShapes d) total,
       p + totalShapes d, none⟩ := by
  induction d generalizing p with
  | nil => simp [runSlides, percentEvents, totalShapes]
  | cons slide rest ih =>
    simp only [runSlides, runShapes_of_pos tr h, ih, totalShapes_cons,
      List.map_cons, SlidesOut.mk.injEq]
    refine ⟨trivial, ?_, by omega, trivial⟩
    have hpe := percentEvents_append (p + 1) slide.length
      (totalShapes rest) total
    rw [show p + 1 + slide.length = p + slide.length + 1 by omega] at hpe
    exact hpe

theorem slides_empty_of_totalShapes_zero :
    ∀ {d : Doc}, totalShapes d = 0 → ∀ sl ∈ d, sl = [] := by
  intro d
  induction d with
  | nil => intro _ sl hsl; simp at hsl
  | cons a rest ih =>
    intro h sl hsl
    rw [totalShapes_cons] at h
    rcases List.mem_cons.mp hsl with h1 | h1
    · subst h1
      exact List.eq_nil_of_length_eq_zero (by omega)
    · exact ih (by omega) sl h1

theorem runSlides_of_zero (tr : Translator) (total : Nat) (d : Doc)
    (p : Nat) (h : totalShapes d = 0) :
    runSlides tr total d p = ⟨d, [], p, none⟩ := by
  induction d with
  | nil => simp [runSlides]
  | cons slide rest ih =>
    have hsl : slide = [] :=
      slides_empty_of_totalShapes_zero h slide (by simp)
    rw [totalShapes_cons] at h
    subst hsl
    simp [runSlides, runShapes, ih (by omega)]

theorem map_self_of_totalShapes_zero {d : Doc} (h : totalShapes d = 0)
    (f : Shape → Shape) : d.map (List.map f) = d := by
  induction d with
  | nil => simp
  | cons slide rest ih =>
    have hsl : slide = [] :=
      slides_empty_of_totalShapes_zero h slide (by simp)
    rw [totalShapes_cons] at h
    subst hsl
    simp [ih (by omega)]

/-- Main loop lemma: with `total` the real shape count (as in `run`), the
loop never aborts, processes every shape, and emits one Progress per shape
with the floored running percentage. -/
theorem runSlides_run (tr : Translator) (d : Doc) :
    runSlides tr (totalShapes d) d 0 =
      ⟨d.map (List.map (processShape tr)),
       percentEvents 1 (totalShapes d) (totalShapes d),
       totalShapes d, none⟩ := by
  rcases Nat.eq_zero_or_pos (totalShapes d) with h | h
  · rw [runSlides_of_zero _ _ _ _ h, map_self_of_totalShapes_zero h, h]
    simp [percentEvents]
  · have := runSlides_of_pos tr (Nat.pos_iff_ne_zero.mp h) d 0
    simpa using this

/-- The worker's observable result when translator construction and document
opening succeed, as a function of the save outcome. -/
theorem runWorker_setup_ok (env : Env) (job : Job) (tr : Translator)
    (d : Doc) (h1 : env.mkTranslator job.source job.target = .ok tr)
    (h2 : env.openDoc job.input_file = .ok d) :
    runWorker env job =
      match env.save (d.map (List.map (processShape tr))) job.output_file with
      | .ok _ =>
          ⟨percentEvents 1 (totalShapes d) (totalShapes d) ++ [.finished],
           [(job.output_file, d.map (List.map (processShape tr)))], true⟩
      | .error e =>
          ⟨percentEvents 1 (totalShapes d) (totalShapes d) ++ [.error e],
           [], true⟩ := by
  cases hs : env.save (d.map (List.map (processShape tr))) job.output_file with
  | ok u => simp [runWorker, h1, h2, runSlides_run, hs]
  | error e => simp [runWorker, h1, h2, runSlides_run, hs]

theorem progressVals_map_progress (g : Nat → Nat) (l : List Nat) :
    progressVals (l.map fun i => Event.progress (g i)) = l.map g := by
  induction l with
  | nil => rfl
  | cons a t ih =>
    simp only [List.map_cons, progressVals, List.filterMap_cons,
      eventValue?] at ih ⊢
    rw [ih]

theorem progressVals_percentEvents (start n total : Nat) :
    progressVals (percentEvents start n total) =
      (List.range' start n).map fun i => i * 100 / total :=
  progressVals_map_progress _ _

theorem pairwise_le_progressVals_percentEvents (start n total : Nat) :
    List.Pairwise (· ≤ ·) (progressVals (percentEvents start n total)) := by
  rw [progressVals_percentEvents]
  exact (List.pairwise_le_range' start n).map _
    fun a b hab => Nat.div_le_div_right (Nat.mul_le_mul_right 100 hab)

theorem progressVals_append (l1 l2 : List Event) :
    progressVals (l1 ++ l2) = progressVals l1 ++ progressVals l2 :=
  List.filterMap_append l1 l2 eventValue?

theorem eventValue?_isSome_of_mem_percentEvents {s n t : Nat} {e : Event}
    (h : e ∈ percentEvents s n t) : (eventValue? e).isSome := by
  rcases List.mem_map.mp h with ⟨i, _, rfl⟩
  rfl

theorem finished_not_mem_percentEvents (s n t : Nat) :
    Event.finished ∉ percentEvents s n t := by
  intro h
  rcases List.mem_map.mp h with ⟨i, _, hi⟩
  exact Event.noConfusion hi

theorem percentEvents_concat (s n t : Nat) :
    percentEvents s (n + 1) t =
      percentEvents s n t ++ [Event.progress ((s + n) * 100 / t)] := by
  rw [percentEvents, List.range'_1_concat, List.map_append]
  rfl

theorem percentEvents_concat_100 {N : Nat} (h : 0 < N) :
    percentEvents 1 N N = percentEvents 1 (N - 1) N ++ [Event.progress 100] := by
  have h2 := percentEvents_concat 1 (N - 1) N
  rw [show N - 1 + 1 = N by omega] at h2
  rw [h2, show 1 + (N - 1) = N by omega, Nat.mul_div_cancel_left 100 h]

theorem percent_le_100 {i N : Nat} (h : i ≤ N) : i * 100 / N ≤ 100 := by
  rcases Nat.eq_zero_or_pos N with h0 | h0
  · subst h0
    simp
  · calc i * 100 / N ≤ N * 100 / N :=
        Nat.div_le_div_right (Nat.mul_le_mul_right 100 h)
    _ = 100 := Nat.mul_div_cancel_left 100 h0

theorem runWorker_save_ok (env : Env) (job : Job) (tr : Translator)
    (d : Doc) (u : Unit)
    (h1 : env.mkTranslator job.source job.target = .ok tr)
    (h2 : env.openDoc job.input_file = .ok d)
    (hs : env.save (d.map (List.map (processShape tr))) job.output_file
            = .ok u) :
    runWorker env job =
      ⟨percentEvents 1 (totalShapes d) (totalShapes d) ++ [.finished],
       [(job.output_file, d.map (List.map (processShape tr)))], true⟩ := by
  rw [runWorker_setup_ok env job tr d h1 h2, hs]

theorem runWorker_save_error (env : Env) (job : Job) (tr : Translator)
    (d : Doc) (e : String)
    (h1 : env.mkTranslator job.source job.target = .ok tr)
    (h2 : env.openDoc job.input_file = .ok d)
    (hs : env.save (d.map (List.map (processShape tr))) job.output_file
            = .error e) :
    runWorker env job =
      ⟨percentEvents 1 (totalShapes d) (totalShapes d) ++ [.error e],
       [], true⟩ := by
  rw [runWorker_setup_ok env job tr d h1 h2, hs]

theorem runWorker_mk_error (env : Env) (job : Job) (e : String)
    (h1 : env.mkTranslator job.source job.target = .error e) :
    runWorker env job = ⟨[.error e], [], false⟩ := by
  rw [runWorker, h1]

theorem runWorker_open_error (env : Env) (job : Job) (tr : Translator)
    (e : String)
    (h1 : env.mkTranslator job.source job.target = .ok tr)
    (h2 : env.openDoc job.input_file = .error e) :
    runWorker env job = ⟨[.error e], [], false⟩ := by
  rw [runWorker, h1, h2]

/-! ## The claims -/

/-- C1: for every run of the Translation Worker (`TranslatorThread.run`),
the sequence of notifications emitted is zero-or-more Progress events with
non-decreasing values, followed by exactly one terminal event (Finished or
Error), and no notification of any kind is emitted after the terminal one. -/
theorem C1_run_notification_sequence (env : Env) (job : Job) :
    ∃ evs last, (runWorker env job).events = evs ++ [last]
      ∧ (∀ e ∈ evs, (eventValue? e).isSome)
      ∧ List.Pairwise (· ≤ ·) (progressVals ((runWorker env job).events))
      ∧ isTerminal last = true := by
  rcases hmk : env.mkTranslator job.source job.target with e | tr
  · refine ⟨[], .error e, ?_, by simp, ?_, rfl⟩
    · rw [runWorker_mk_error env job e hmk]
      rfl
    · rw [runWorker_mk_error env job e hmk]
      exact List.Pairwise.nil
  · rcases hop : env.openDoc job.input_file with e | d
    · refine ⟨[], .error e, ?_, by simp, ?_, rfl⟩
      · rw [runWorker_open_error env job tr e hmk hop]
        rfl
      · rw [runWorker_open_error env job tr e hmk hop]
        exact List.Pairwise.nil
    · rcases hs : env.save (d.map (List.map (processShape tr)))
        job.output_file with e | u
      · refine ⟨percentEvents 1 (totalShapes d) (totalShapes d), .error e,
          ?_, ?_, ?_, rfl⟩
        · rw [runWorker_save_error env job tr d e hmk hop hs]
        · intro x hx
          exact eventValue?_isSome_of_mem_percentEvents hx
        · rw [runWorker_save_error env job tr d e hmk hop hs]
          have h0 : progressVals [Event.error e] = [] := rfl
          show List.Pairwise (· ≤ ·) (progressVals
            (percentEvents 1 (totalShapes d) (totalShapes d) ++ [Event.error e]))
          rw [progressVals_append, h0, List.append_nil]
          exact pairwise_le_progressVals_percentEvents _ _ _
      · refine ⟨percentEvents 1 (totalShapes d) (totalShapes d), .finished,
          ?_, ?_, ?_, rfl⟩
        · rw [runWorker_save_ok env job tr d u hmk hop hs]
        · intro x hx
          exact eventValue?_isSome_of_mem_percentEvents hx
        · rw [runWorker_save_ok env job tr d u hmk hop hs]
          have h0 : progressVals [Event.finished] = [] := rfl
          show List.Pairwise (· ≤ ·) (progressVals
            (percentEvents 1 (totalShapes d) (totalShapes d) ++ [Event.finished]))
          rw [progressVals_append, h0, List.append_nil]
          exact pairwise_le_progressVals_percentEvents _ _ _

theorem runWorker_events_of_setup (env : Env) (job : Job) (tr : Translator)
    (d : Doc)
    (h1 : env.mkTranslator job.source job.target = .ok tr)
    (h2 : env.openDoc job.input_file = .ok d) :
    ∃ last, (runWorker env job).events =
        percentEvents 1 (totalShapes d) (totalShapes d) ++ [last]
      ∧ isTerminal last = true := by
  rcases hs : env.save (d.map (List.map (processShape tr)))
      job.output_file with e | u
  · exact ⟨.error e,
      by rw [runWorker_save_error env job tr d e h1 h2 hs], rfl⟩
  · exact ⟨.finished,
      by rw [runWorker_save_ok env job tr d u h1 h2 hs], rfl⟩

theorem progressVals_singleton_terminal {e : Event}
    (h : isTerminal e = true) : progressVals [e] = [] := by
  cases e with
  | progress v => exact Bool.noConfusion h
  | finished => rfl
  | error m => rfl

/-- C3: for every job whose document has `N > 0` shapes and whose run reaches
no fatal abort before the loop completes (translator construction and opening
succeed; nothing inside the loop can abort), the Progress values emitted are
`⌊processed / N * 100⌋` with `processed` incrementing by one per shape, hence
non-decreasing and each in `[0, 100]`; the last Progress value before the
terminal event is 100, and at most `N` Progress events are emitted. -/
theorem C3_progress_values (env : Env) (job : Job) (tr : Translator)
    (d : Doc) (N : Nat)
    (h1 : env.mkTranslator job.source job.target = .ok tr)
    (h2 : env.openDoc job.input_file = .ok d)
    (hN : totalShapes d = N) (hpos : 0 < N) :
    ∃ last,
      (runWorker env job).events =
        ((List.range' 1 N).map fun i => Event.progress (i * 100 / N))
          ++ [last]
      ∧ isTerminal last = true
      ∧ List.Pairwise (· ≤ ·) (progressVals ((runWorker env job).events))
      ∧ (∀ v ∈ progressVals ((runWorker env job).events), v ≤ 100)
      ∧ (∃ pre, (runWorker env job).events
            = pre ++ [Event.progress 100, last])
      ∧ (progressVals ((runWorker env job).events)).length ≤ N := by
  subst hN
  obtain ⟨last, hev, hterm⟩ :=
    runWorker_events_of_setup env job tr d h1 h2
  refine ⟨last, hev, hterm, ?_, ?_, ?_, ?_⟩
  · rw [hev, progressVals_append, progressVals_singleton_terminal hterm,
      List.append_nil]
    exact pairwise_le_progressVals_percentEvents _ _ _
  · intro v hv
    rw [hev, progressVals_append, progressVals_singleton_terminal hterm,
      List.append_nil, progressVals_percentEvents] at hv
    rcases List.mem_map.mp hv with ⟨i, hi, rfl⟩
    have hi2 := List.mem_range'_1.mp hi
    exact percent_le_100 (by omega)
  · refine ⟨percentEvents 1 (totalShapes d - 1) (totalShapes d), ?_⟩
    rw [hev, percentEvents_concat_100 hpos, List.append_assoc]
    rfl
  · rw [hev, progressVals_append, progressVals_singleton_terminal hterm,
      List.append_nil, progressVals_percentEvents, List.length_map,
      List.length_range']

/-- C4: for every run whose setup succeeded, a failure raised while
translating or assigning text for a single shape is caught locally and does
not abort the run: this holds for every translator `tr`, including ones that
fail on some or all inputs — every shape is still processed (the final
document is the shape-wise `processShape` image), the loop never aborts, the
failed shape still increments the processed count and still causes a Progress
notification (one Progress per shape), and a terminal event still follows. -/
theorem C4_shape_failure_is_local (env : Env) (job : Job) (tr : Translator)
    (d : Doc)
    (h1 : env.mkTranslator job.source job.target = .ok tr)
    (h2 : env.openDoc job.input_file = .ok d) :
    (runSlides tr (totalShapes d) d 0).slides
        = d.map (List.map (processShape tr))
    ∧ (runSlides tr (totalShapes d) d 0).fatal = none
    ∧ (runSlides tr (totalShapes d) d 0).processed = totalShapes d
    ∧ (progressVals ((runWorker env job).events)).length = totalShapes d
    ∧ ∃ last, (runWorker env job).events
          = percentEvents 1 (totalShapes d) (totalShapes d) ++ [last]
        ∧ isTerminal last = true := by
  obtain ⟨last, hev, hterm⟩ :=
    runWorker_events_of_setup env job tr d h1 h2
  refine ⟨by rw [runSlides_run], by rw [runSlides_run],
    by rw [runSlides_run], ?_, last, hev, hterm⟩
  rw [hev, progressVals_append, progressVals_singleton_terminal hterm,
    List.append_nil, progressVals_percentEvents, List.length_map,
    List.length_range']

/-- C5: any exception escaping translator construction, opening the document,
or persisting the document (none caught locally) is caught at the worker's
top level and reported as exactly one Error notification carrying the
exception's message; no Finished notification is emitted in that run. -/
theorem C5_fatal_error_reported_once (env : Env) (job : Job) (e : String)
    (h : env.mkTranslator job.source job.target = .error e
       ∨ (∃ tr, env.mkTranslator job.source job.target = .ok tr
            ∧ env.openDoc job.input_file = .error e)
       ∨ (∃ tr d, env.mkTranslator job.source job.target = .ok tr
            ∧ env.openDoc job.input_file = .ok d
            ∧ env.save (d.map (List.map (processShape tr)))
                job.output_file = .error e)) :
    ∃ evs, (runWorker env job).events = evs ++ [Event.error e]
      ∧ (∀ x ∈ evs, (eventValue? x).isSome)
      ∧ Event.finished ∉ (runWorker env job).events := by
  have main : ∃ evs, (runWorker env job).events = evs ++ [Event.error e]
      ∧ (∀ x ∈ evs, (eventValue? x).isSome) := by
    rcases h with h | ⟨tr, hmk, hop⟩ | ⟨tr, d, hmk, hop, hs⟩
    · exact ⟨[], by simp [runWorker_mk_error env job e h], by simp⟩
    · exact ⟨[],
        by simp [runWorker_open_error env job tr e hmk hop], by simp⟩
    · refine ⟨percentEvents 1 (totalShapes d) (totalShapes d),
        by rw [runWorker_save_error env job tr d e hmk hop hs], ?_⟩
      intro x hx
      exact eventValue?_isSome_of_mem_percentEvents hx
  obtain ⟨evs, hev, hprog⟩ := main
  refine ⟨evs, hev, hprog, ?_⟩
  rw [hev]
  intro hmem
  rcases List.mem_append.mp hmem with hmem | hmem
  · have h3 := hprog _ hmem
    simp [eventValue?] at h3
  · rcases List.mem_singleton.mp hmem with h2
    exact Event.noConfusion h2

/-- C10: for every run whose setup succeeded, every shape on every slide —
including shapes that carry neither a direct text attribute nor a text-frame
and shapes whose text is whitespace-only — is counted in `total_units` and
increments the processed count exactly once, emitting exactly one Progress
notification; the percentages range over all shapes, not only text-bearing
ones; shapes with no text attribute, and whitespace-only texts, send nothing
to the translator yet still emit Progress. -/
theorem C10_all_shapes_counted (env : Env) (job : Job) (tr : Translator)
    (d : Doc)
    (h1 : env.mkTranslator job.source job.target = .ok tr)
    (h2 : env.openDoc job.input_file = .ok d) :
    (progressVals ((runWorker env job).events)).length = totalShapes d
    ∧ totalShapes d = (d.map List.length).sum
    ∧ (runSlides tr (totalShapes d) d 0).processed = totalShapes d
    ∧ (∃ last, (runWorker env job).events
          = percentEvents 1 (totalShapes d) (totalShapes d) ++ [last]
        ∧ isTerminal last = true)
    ∧ (∀ tr2 : Translator, sentTexts tr2 .other = [])
    ∧ (∀ (tr2 : Translator) (t : String), pyHasContent t = false →
        sentTexts tr2 (.withText t) = []) := by
  obtain ⟨last, hev, hterm⟩ :=
    runWorker_events_of_setup env job tr d h1 h2
  refine ⟨?_, rfl, by rw [runSlides_run], ⟨last, hev, hterm⟩,
    fun tr2 => rfl, ?_⟩
  · rw [hev, progressVals_append, progressVals_singleton_terminal hterm,
      List.append_nil, progressVals_percentEvents, List.length_map,
      List.length_range']
  · intro tr2 t ht
    simp [sentTexts, ht]

/-! ## Concrete environments and jobs used to instantiate the claims -/

/-- A translator that returns its input unchanged and never fails. -/
def idTranslator : Translator := fun s => .ok s

/-- A translator whose every call raises. -/
def failTranslator : Translator := fun _ => .error "boom"

def jobX : Job := ⟨"in.pptx", "out.pptx", "en", "es"⟩

/-- A job whose output path coincides with its input path (the UI's save
dialog does not forbid this choice). -/
def jobSamePath : Job := ⟨"same.pptx", "same.pptx", "en", "es"⟩

/-- One slide, zero shapes; everything external succeeds. -/
def envZeroShapes : Env :=
  { mkTranslator := fun _ _ => .ok idTranslator
    openDoc := fun _ => .ok [[]]
    save := fun _ _ => .ok () }

/-- One slide, zero shapes; `prs.save` raises. -/
def envSaveFail : Env :=
  { mkTranslator := fun _ _ => .ok idTranslator
    openDoc := fun _ => .ok [[]]
    save := fun _ _ => .error "save failed" }

/-- `GoogleTranslator(...)` raises. -/
def envMkFail : Env :=
  { mkTranslator := fun _ _ => .error "invalid language"
    openDoc := fun _ => .ok [[]]
    save := fun _ _ => .ok () }

/-- One slide with one direct-text shape. -/
def docOneShape : Doc := [[Shape.withText "Hello"]]

/-- One slide with two direct-text shapes. -/
def docTwoShapes : Doc := [[Shape.withText "Hello", Shape.withText "World"]]

/-- A picture-like shape and a whitespace-only text shape. -/
def docMixed : Doc := [[Shape.other, Shape.withText "   "]]

/-- One slide with one direct-text shape; everything succeeds. -/
def envOneShape : Env :=
  { mkTranslator := fun _ _ => .ok idTranslator
    openDoc := fun _ => .ok docOneShape
    save := fun _ _ => .ok () }

/-- Two direct-text shapes; every `translate` call raises. -/
def envFailTranslate : Env :=
  { mkTranslator := fun _ _ => .ok failTranslator
    openDoc := fun _ => .ok docTwoShapes
    save := fun _ _ => .ok () }

/-- A picture-like shape and a whitespace-only text shape; all external
calls succeed. -/
def envMixedShapes : Env :=
  { mkTranslator := fun _ _ => .ok idTranslator
    openDoc := fun _ => .ok docMixed
    save := fun _ _ => .ok () }

/-! ## C2 (corrected) -/

/-- C2 counterexample: a job whose document has zero shapes but whose
`prs.save` raises emits Error, not Finished — so, as stated, "the run …
emits exactly one Finished notification" is false; only its guarded form
holds. -/
theorem C2_counterexample :
    totalShapes [([] : Slide)] = 0
    ∧ (runWorker envSaveFail jobX).events = [Event.error "save failed"]
    ∧ Event.finished ∉ (runWorker envSaveFail jobX).events := by
  refine ⟨rfl, rfl, ?_⟩
  decide

/-- C2 (amended): for every job whose document opens with zero shape-like
elements, the loop body never executes, so the division in the percentage
computation is never evaluated (no division-by-zero; the loop's fatal slot
stays `none`), zero Progress notifications are emitted, exactly one terminal
notification is emitted, and it is Finished provided persisting the document
succeeds (a save failure yields Error instead). -/
theorem C2_zero_shapes (env : Env) (job : Job) (tr : Translator) (d : Doc)
    (h1 : env.mkTranslator job.source job.target = .ok tr)
    (h2 : env.openDoc job.input_file = .ok d)
    (h0 : totalShapes d = 0) :
    (runSlides tr (totalShapes d) d 0).fatal = none
    ∧ progressVals ((runWorker env job).events) = []
    ∧ (∃ last, (runWorker env job).events = [last] ∧ isTerminal last = true)
    ∧ (∀ u : Unit, env.save d job.output_file = .ok u →
        (runWorker env job).events = [Event.finished]) := by
  obtain ⟨last, hev, hterm⟩ :=
    runWorker_events_of_setup env job tr d h1 h2
  have hpe : percentEvents 1 (totalShapes d) (totalShapes d) = [] := by
    rw [h0]
    rfl
  rw [hpe, List.nil_append] at hev
  refine ⟨by rw [runSlides_run], ?_, ⟨last, hev, hterm⟩, ?_⟩
  · rw [hev]
    exact progressVals_singleton_terminal hterm
  · intro u hsave
    have hs : env.save (d.map (List.map (processShape tr)))
        job.output_file = .ok u := by
      rw [map_self_of_totalShapes_zero h0]
      exact hsave
    rw [runWorker_save_ok env job tr d u h1 h2 hs]
    show percentEvents 1 (totalShapes d) (totalShapes d)
        ++ [Event.finished] = [Event.finished]
    rw [hpe, List.nil_append]

/-- C2 witness: the amended statement at a concrete zero-shape document with
a succeeding save. -/
theorem C2_zero_shapes_witness :
    (runSlides idTranslator (totalShapes [[]]) [[]] 0).fatal = none
    ∧ progressVals ((runWorker envZeroShapes jobX).events) = []
    ∧ (∃ last, (runWorker envZeroShapes jobX).events = [last]
        ∧ isTerminal last = true)
    ∧ (∀ u : Unit, envZeroShapes.save [[]] jobX.output_file = .ok u →
        (runWorker envZeroShapes jobX).events = [Event.finished]) :=
  C2_zero_shapes envZeroShapes jobX idTranslator [[]] rfl rfl rfl

/-! ## C6 (corrected) -/

/-- An environment where everything external succeeds, used against
`jobSamePath`. -/
def envAllOk : Env :=
  { mkTranslator := fun _ _ => .ok idTranslator
    openDoc := fun _ => .ok [[]]
    save := fun _ _ => .ok () }

/-- C6 counterexample: nothing stops the output path from equalling the input
path, and then the (successful) save writes the input file — "never modifies
the input file" fails as stated. -/
theorem C6_counterexample :
    (runWorker envAllOk jobSamePath).written.map Prod.fst
      = [jobSamePath.input_file]
    ∧ jobSamePath.input_file
        ∈ (runWorker envAllOk jobSamePath).written.map Prod.fst := by
  refine ⟨rfl, ?_⟩
  decide

/-- C6 (amended): the worker writes only via the save call, which targets
only the job's output path, is reached only when no fatal exception occurred
earlier (setup succeeded and the loop did not abort), and a performed write
is followed only by the Finished notification; consequently the input file is
never modified provided the chosen output path differs from the input path. -/
theorem C6_write_only_output (env : Env) (job : Job) :
    ((runWorker env job).saveReached = true →
      ∃ tr d, env.mkTranslator job.source job.target = .ok tr
        ∧ env.openDoc job.input_file = .ok d
        ∧ (runSlides tr (totalShapes d) d 0).fatal = none)
    ∧ (∀ (p : String) (dc : Doc), (p, dc) ∈ (runWorker env job).written →
        p = job.output_file
        ∧ ∃ evs, (runWorker env job).events = evs ++ [Event.finished])
    ∧ (job.input_file ≠ job.output_file →
        ∀ (p : String) (dc : Doc), (p, dc) ∈ (runWorker env job).written →
          p ≠ job.input_file) := by
  rcases hmk : env.mkTranslator job.source job.target with e | tr
  · rw [runWorker_mk_error env job e hmk]
    refine ⟨fun h => Bool.noConfusion h, ?_, ?_⟩
    · intro p dc h
      exact absurd h (List.not_mem_nil _)
    · intro _ p dc h
      exact absurd h (List.not_mem_nil _)
  · rcases hop : env.openDoc job.input_file with e | d
    · rw [runWorker_open_error env job tr e hmk hop]
      refine ⟨fun h => Bool.noConfusion h, ?_, ?_⟩
      · intro p dc h
        exact absurd h (List.not_mem_nil _)
      · intro _ p dc h
        exact absurd h (List.not_mem_nil _)
    · rcases hs : env.save (d.map (List.map (processShape tr)))
        job.output_file with e | u
      · rw [runWorker_save_error env job tr d e hmk hop hs]
        refine ⟨fun _ => ⟨tr, d, rfl, rfl, by rw [runSlides_run]⟩, ?_, ?_⟩
        · intro p dc h
          exact absurd h (List.not_mem_nil _)
        · intro _ p dc h
          exact absurd h (List.not_mem_nil _)
      · rw [runWorker_save_ok env job tr d u hmk hop hs]
        refine ⟨fun _ => ⟨tr, d, rfl, rfl, by rw [runSlides_run]⟩, ?_, ?_⟩
        · intro p dc h
          have h2 := List.mem_singleton.mp h
          rw [Prod.mk.injEq] at h2
          exact ⟨h2.1, percentEvents 1 (totalShapes d) (totalShapes d), rfl⟩
        · intro hne p dc h
          have h2 := List.mem_singleton.mp h
          rw [Prod.mk.injEq] at h2
          rw [h2.1]
          intro hc
          exact hne hc.symm

/-- C6 witness: a successful run against distinct paths writes exactly the
output path and ends with Finished. -/
theorem C6_write_only_output_witness :
    ("out.pptx" : String) = jobX.output_file
    ∧ ∃ evs, (runWorker envAllOk jobX).events = evs ++ [Event.finished] :=
  (C6_write_only_output envAllOk jobX).2.1 "out.pptx" [[]] (by decide)

/-! ## C7 and C9: the application window -/

/-- C7: for every invocation of `translate_pptx`, if either path label still
holds its "none selected" placeholder, a blocking warning is shown and no
further action is taken: no Worker is created or started (so no file I/O can
begin), and the UI state — button enablement, progress, labels — is
unchanged. -/
theorem C7_guard_blocks_start (s : AppState)
    (h : s.input_file_label = "No input file selected"
       ∨ s.output_file_label = "No output file selected") :
    translate_pptx s =
      (s, [UIAction.warningBox "Error"
            "Please select both input and output files."])
    ∧ ∀ j : Job, UIAction.startThread j ∉ (translate_pptx s).2 := by
  have hg : translate_pptx s =
      (s, [UIAction.warningBox "Error"
            "Please select both input and output files."]) := by
    unfold translate_pptx
    rw [if_pos h]
  refine ⟨hg, ?_⟩
  intro j hmem
  rw [hg] at hmem
  exact UIAction.noConfusion (List.mem_singleton.mp hmem)

/-- C7 witness: the freshly initialized window (both placeholders) warns and
leaves the state untouched. -/
theorem C7_guard_blocks_start_witness :
    translate_pptx initUI =
      (initUI, [UIAction.warningBox "Error"
                 "Please select both input and output files."]) :=
  (C7_guard_blocks_start initUI (Or.inl rfl)).1

/-- C9: when `translate_pptx` passes its guard, the translate control is
disabled, progress is reset to 0, and exactly one Worker is started, carrying
the job built from the window's current state; and after every terminal
notification — Finished or Error — the translate control is re-enabled. -/
theorem C9_translate_control_state_machine (s : AppState)
    (h : ¬(s.input_file_label = "No input file selected"
         ∨ s.output_file_label = "No output file selected")) :
    ((translate_pptx s).1.translate_button_enabled = false
      ∧ (translate_pptx s).1.progress_bar = 0
      ∧ (translate_pptx s).2 =
          [UIAction.startThread
            ⟨s.input_file_label, s.output_file_label,
             s.source_lang, s.target_lang⟩])
    ∧ (∀ s2 : AppState,
        (translation_finished s2).1.translate_button_enabled = true)
    ∧ (∀ (s2 : AppState) (m : String),
        (translation_error s2 m).1.translate_button_enabled = true) := by
  refine ⟨?_, fun s2 => rfl, fun s2 m => rfl⟩
  have hg : translate_pptx s =
      ({ s with translate_button_enabled := false, progress_bar := 0 },
       [UIAction.startThread
          ⟨s.input_file_label, s.output_file_label,
           s.source_lang, s.target_lang⟩]) := by
    unfold translate_pptx
    rw [if_neg h]
  rw [hg]
  exact ⟨rfl, rfl, rfl⟩

/-- A window state with both paths chosen. -/
def sReady : AppState := ⟨"a.pptx", "b.pptx", "en", "es", 55, true⟩

/-- C9 witness: starting from a state with real paths, the button is
disabled, progress reset, and exactly one worker started with that state's
job. -/
theorem C9_translate_control_state_machine_witness :
    (translate_pptx sReady).1.translate_button_enabled = false
    ∧ (translate_pptx sReady).1.progress_bar = 0
    ∧ (translate_pptx sReady).2 =
        [UIAction.startThread ⟨"a.pptx", "b.pptx", "en", "es"⟩] :=
  (C9_translate_control_state_machine sReady (by decide)).1

/-! ## C8: per-shape translation granularity -/

/-- A total translator built from a pure function: every call succeeds. -/
def okTr (f : String → String) : Translator := fun s => .ok (f s)

theorem pyHasContent_append (a b : String) :
    pyHasContent (a ++ b) = (pyHasContent a || pyHasContent b) := by
  simp [pyHasContent, String.data_append]

theorem pyHasContent_newline : pyHasContent "\n" = false := by
  decide

theorem pyHasContent_intercalate_go (acc : String) (l : List String) :
    pyHasContent (String.intercalate.go acc "\n" l)
      = (pyHasContent acc || l.any pyHasContent) := by
  induction l generalizing acc with
  | nil => simp [String.intercalate.go]
  | cons a as ih =>
    simp [String.intercalate.go, ih, pyHasContent_append,
      pyHasContent_newline, Bool.or_assoc]

theorem any_pyHasContent_map_text (t : List Paragraph) :
    (t.map Paragraph.text).any pyHasContent
      = t.any fun q => pyHasContent q.text := by
  induction t with
  | nil => rfl
  | cons a s ih => simp [ih]

/-- The frame's joined text passes the `strip()` guard exactly when some
paragraph's text does: the separator is whitespace. -/
theorem pyHasContent_frameText (ps : List Paragraph) :
    pyHasContent (frameText ps) = ps.any fun q => pyHasContent q.text := by
  cases ps with
  | nil => rfl
  | cons p t =>
    show pyHasContent (String.intercalate.go p.text "\n"
      (t.map Paragraph.text)) = _
    rw [pyHasContent_intercalate_go, any_pyHasContent_map_text,
      List.any_cons]

theorem translateParas_okTr (f : String → String) (ps : List Paragraph) :
    translateParas (okTr f) ps =
      ps.map fun q => if pyHasContent q.text then ⟨f q.text⟩ else q := by
  induction ps with
  | nil => rfl
  | cons p t ih =>
    by_cases hp : pyHasContent p.text <;>
      simp [translateParas, hp, okTr, ih]

theorem sentParas_okTr (f : String → String) (ps : List Paragraph) :
    sentParas (okTr f) ps =
      (ps.filter fun q => pyHasContent q.text).map Paragraph.text := by
  induction ps with
  | nil => rfl
  | cons p t ih =>
    by_cases hp : pyHasContent p.text <;>
      simp [sentParas, hp, okTr, List.filter_cons, ih]

theorem mem_sentParas_content {tr : Translator} :
    ∀ {ps : List Paragraph} {x : String},
      x ∈ sentParas tr ps → pyHasContent x = true := by
  intro ps
  induction ps with
  | nil =>
    intro x hx
    simp [sentParas] at hx
  | cons p t ih =>
    intro x hx
    by_cases hp : pyHasContent p.text
    · rw [sentParas, if_pos hp] at hx
      rcases List.mem_cons.mp hx with h1 | h1
      · rw [h1]
        exact hp
      · rcases htr : tr p.text with e | t2
        · rw [htr] at h1
          exact absurd h1 (List.not_mem_nil _)
        · rw [htr] at h1
          exact ih h1
    · rw [sentParas, if_neg hp] at hx
      exact ih hx

theorem map_self_of_no_content {ps : List Paragraph}
    (h : ∀ q ∈ ps, pyHasContent q.text = false)
    (f : String → String) :
    (ps.map fun q => if pyHasContent q.text then
        (⟨f q.text⟩ : Paragraph) else q) = ps := by
  induction ps with
  | nil => rfl
  | cons p t ih =>
    rw [List.map_cons, if_neg (by simp [h p (by simp)]),
      ih fun q hq => h q (List.mem_cons_of_mem _ hq)]

theorem filter_nil_of_no_content {ps : List Paragraph}
    (h : ∀ q ∈ ps, pyHasContent q.text = false) :
    ps.filter (fun q => pyHasContent q.text) = [] := by
  induction ps with
  | nil => rfl
  | cons p t ih =>
    rw [List.filter_cons, if_neg (by simp [h p (by simp)]),
      ih fun q hq => h q (List.mem_cons_of_mem _ hq)]

/-- C8: per-shape translation granularity, against any translator built from
a pure function `f` (no call fails): a direct text attribute is translated
as a whole exactly when its stripped text is non-empty, and the result is
assigned back; a shape carrying a text-frame instead has exactly its
paragraphs with non-empty stripped text translated independently and
assigned back; exactly the non-blank texts are sent to the translator; and a
paragraph whose stripped text is empty is — for an arbitrary, possibly
failing, translator — never sent to the translator, and is left unmodified. -/
theorem C8_translation_granularity (f : String → String) (t : String)
    (ps : List Paragraph) :
    processShape (okTr f) (.withText t)
        = .withText (if pyHasContent t then f t else t)
    ∧ sentTexts (okTr f) (.withText t) = (if pyHasContent t then [t] else [])
    ∧ processShape (okTr f) (.withFrame ps)
        = .withFrame
            (ps.map fun q => if pyHasContent q.text then ⟨f q.text⟩ else q)
    ∧ sentTexts (okTr f) (.withFrame ps)
        = (ps.filter fun q => pyHasContent q.text).map Paragraph.text
    ∧ (∀ tr : Translator, ∀ q ∈ ps, pyHasContent q.text = false →
        q.text ∉ sentTexts tr (.withFrame ps)) := by
  refine ⟨?_, ?_, ?_, ?_, ?_⟩
  · by_cases ht : pyHasContent t <;> simp [processShape, okTr, ht]
  · by_cases ht : pyHasContent t <;> simp [sentTexts, ht]
  · by_cases hf : pyHasContent (frameText ps)
    · simp [processShape, hf, translateParas_okTr]
    · have hall : ∀ q ∈ ps, pyHasContent q.text = false := by
        have h2 := pyHasContent_frameText ps
        rw [Bool.eq_false_iff.mpr hf] at h2
        intro q hq
        exact Bool.eq_false_iff.mpr (List.any_eq_false.mp h2.symm q hq)
      simp [processShape, hf, map_self_of_no_content hall]
  · by_cases hf : pyHasContent (frameText ps)
    · simp [sentTexts, hf, sentParas_okTr]
    · have hall : ∀ q ∈ ps, pyHasContent q.text = false := by
        have h2 := pyHasContent_frameText ps
        rw [Bool.eq_false_iff.mpr hf] at h2
        intro q hq
        exact Bool.eq_false_iff.mpr (List.any_eq_false.mp h2.symm q hq)
      simp [sentTexts, hf, filter_nil_of_no_content hall]
  · intro tr q hq hqt hmem
    by_cases hf : pyHasContent (frameText ps)
    · rw [sentTexts, if_pos hf] at hmem
      rw [mem_sentParas_content hmem] at hqt
      exact Bool.noConfusion hqt
    · rw [sentTexts, if_neg hf] at hmem
      exact absurd hmem (List.not_mem_nil _)

/-- The translator stub `s ↦ s ++ "!"`. -/
def exclaimTr : String → String := fun s => s ++ "!"

/-- C8 witness: the spec's own example — a frame with paragraphs "A" and ""
translates only "A" and leaves the empty paragraph untouched. -/
theorem C8_translation_granularity_witness :
    processShape (okTr exclaimTr) (Shape.withFrame [⟨"A"⟩, ⟨""⟩])
        = Shape.withFrame [⟨"A!"⟩, ⟨""⟩]
    ∧ sentTexts (okTr exclaimTr) (Shape.withFrame [⟨"A"⟩, ⟨""⟩]) = ["A"] := by
  have h := C8_translation_granularity exclaimTr "A" [⟨"A"⟩, ⟨""⟩]
  constructor
  · rw [h.2.2.1]
    decide
  · rw [h.2.2.2.1]
    decide

/-! ## Remaining concrete instantiations -/

/-- C1 witness: the ordering invariant at a concrete one-shape run. -/
theorem C1_run_notification_sequence_witness :
    ∃ evs last, (runWorker envOneShape jobX).events = evs ++ [last]
      ∧ (∀ e ∈ evs, (eventValue? e).isSome)
      ∧ List.Pairwise (· ≤ ·)
          (progressVals ((runWorker envOneShape jobX).events))
      ∧ isTerminal last = true :=
  C1_run_notification_sequence envOneShape jobX

/-- C3 witness: one shape, `N = 1`, every hypothesis discharged concretely. -/
theorem C3_progress_values_witness :
    ∃ last,
      (runWorker envOneShape jobX).events =
        ((List.range' 1 1).map fun i => Event.progress (i * 100 / 1))
          ++ [last]
      ∧ isTerminal last = true
      ∧ List.Pairwise (· ≤ ·)
          (progressVals ((runWorker envOneShape jobX).events))
      ∧ (∀ v ∈ progressVals ((runWorker envOneShape jobX).events), v ≤ 100)
      ∧ (∃ pre, (runWorker envOneShape jobX).events
            = pre ++ [Event.progress 100, last])
      ∧ (progressVals ((runWorker envOneShape jobX).events)).length ≤ 1 :=
  C3_progress_values envOneShape jobX idTranslator docOneShape 1
    rfl rfl rfl (by decide)

/-- C4 witness: a translator that raises on every call still leaves every
shape processed, one Progress per shape, and a terminal event. -/
theorem C4_shape_failure_is_local_witness :
    (runSlides failTranslator (totalShapes docTwoShapes) docTwoShapes 0).slides
        = docTwoShapes.map (List.map (processShape failTranslator))
    ∧ (runSlides failTranslator (totalShapes docTwoShapes)
        docTwoShapes 0).fatal = none
    ∧ (runSlides failTranslator (totalShapes docTwoShapes)
        docTwoShapes 0).processed = totalShapes docTwoShapes
    ∧ (progressVals ((runWorker envFailTranslate jobX).events)).length
        = totalShapes docTwoShapes
    ∧ ∃ last, (runWorker envFailTranslate jobX).events
          = percentEvents 1 (totalShapes docTwoShapes)
              (totalShapes docTwoShapes) ++ [last]
        ∧ isTerminal last = true :=
  C4_shape_failure_is_local envFailTranslate jobX failTranslator
    docTwoShapes rfl rfl

/-- C5 witness: a failing translator construction yields exactly one Error
carrying its message and no Finished. -/
theorem C5_fatal_error_reported_once_witness :
    ∃ evs, (runWorker envMkFail jobX).events
        = evs ++ [Event.error "invalid language"]
      ∧ (∀ x ∈ evs, (eventValue? x).isSome)
      ∧ Event.finished ∉ (runWorker envMkFail jobX).events :=
  C5_fatal_error_reported_once envMkFail jobX "invalid language"
    (Or.inl rfl)

/-- C10 witness: a picture-like shape and a whitespace-only shape both count
toward the total and both emit Progress, and neither sends any text to the
translator. -/
theorem C10_all_shapes_counted_witness :
    (progressVals ((runWorker envMixedShapes jobX).events)).length
        = totalShapes docMixed
    ∧ totalShapes docMixed = (docMixed.map List.length).sum
    ∧ (runSlides idTranslator (totalShapes docMixed) docMixed 0).processed
        = totalShapes docMixed
    ∧ (∃ last, (runWorker envMixedShapes jobX).events
          = percentEvents 1 (totalShapes docMixed) (totalShapes docMixed)
              ++ [last]
        ∧ isTerminal last = true)
    ∧ (∀ tr2 : Translator, sentTexts tr2 .other = [])
    ∧ (∀ (tr2 : Translator) (t : String), pyHasContent t = false →
        sentTexts tr2 (.withText t) = []) :=
  C10_all_shapes_counted envMixedShapes jobX idTranslator docMixed rfl rfl

end PPTTranslator
